import Mathlib

/-!
Verification of the s3ranger virtual-filesystem projection layer.

Python strings are modelled as lists of code points (`Str := List Char`);
Python dicts with fixed key sets are modelled as structures; fallible code
returns `Except`.  Each definition is a direct translation of the named
Python function from the source tree (module paths given in doc comments).
-/

/-- A Python string: a sequence of code points. -/
abbrev Str := List Char

/-- Code points of a Lean string literal, used to write concrete Python strings. -/
def str (s : String) : Str := s.data

/-- Python `s.split(sep)` for a one-character separator: splits at every
occurrence, keeping empty chunks; the empty string yields `[""]`. -/
def pySplit (sep : Char) : Str → List Str
  | [] => [[]]
  | c :: cs =>
    match pySplit sep cs with
    | [] => [[]]
    | h :: t => if c = sep then [] :: h :: t else (c :: h) :: t

/-- Python `s.rstrip("/")`: remove every trailing `'/'`. -/
def rstripSlash (s : Str) : Str := (s.reverse.dropWhile (fun c => c = '/')).reverse

/-- Python `"/".join(parts)`. -/
def joinWith (sep : Char) : List Str → Str
  | [] => []
  | [s] => s
  | s :: t :: rest => s ++ sep :: joinWith sep (t :: rest)

/-- Byte-order (code-point lexicographic) `≤` on strings. -/
def lexLe : Str → Str → Bool
  | [], _ => true
  | _ :: _, [] => false
  | a :: as, b :: bs => if a = b then lexLe as bs else decide (a < b)

/-- A `datetime` value, modelled by its `strftime("%Y-%m-%d %H:%M")` rendering,
which is the only use the projection layer makes of it. -/
structure Datetime where
  rendered : Str
deriving DecidableEq

/-- One raw listing entry (spec `ObjectRecord`): key, size, last-modified. -/
structure ObjectRecord where
  key : Str
  size : Nat
  lastModified : Datetime
deriving DecidableEq

/-- An entry of the `"folders"` list of the store response consumed by
`ObjectList._build_ui_objects`: a dict `{"Prefix": ...}` (the field is named
`pfx` here). -/
structure S3Folder where
  pfx : Str
deriving DecidableEq

/-- An entry of the `"files"` list of the store response: a dict with keys
`"Key"`, `"Size"`, `"LastModified"`. -/
structure S3File where
  key : Str
  size : Nat
  lastModified : Datetime
deriving DecidableEq

/-- The store response dict `{"folders": [...], "files": [...]}` consumed by
`ObjectList._build_ui_objects` (src/src/s3tui/ui/widgets/object_list.py). -/
structure S3Response where
  folders : List S3Folder
  files : List S3File
deriving DecidableEq

/-- A UI row dict as built by `ObjectList._create_*_object`: keys `"key"`,
`"is_folder"`, `"size"`, `"modified"`, `"type"` (last one renamed `ftype`). -/
structure UIObject where
  key : Str
  is_folder : Bool
  size : Str
  modified : Str
  ftype : Str
deriving DecidableEq

/-- Banker's rounding of `10*n/d` to an integer, used to model the CPython
format `f"{n/d:.1f}"` (round-half-even).  The model works on the exact
rational `n/d`; CPython first rounds `n/d` to a binary double, which can
differ in the last decimal for adversarial inputs — no theorem below
depends on this branch. -/
def round1 (n d : Nat) : Nat :=
  let q := (10 * n) / d
  let r := (10 * n) % d
  if 2 * r < d then q else if 2 * r > d then q + 1 else if q % 2 = 0 then q else q + 1

/-- Decimal rendering of `round1 n d` with one fractional digit. -/
def render1 (n d : Nat) : Str :=
  let v := round1 n d
  str (toString (v / 10)) ++ '.' :: str (toString (v % 10))

/-- `format_file_size` from src/src/s3tui/ui/utils.py. -/
def format_file_size (size : Nat) : Str :=
  if size < 1024 then str (toString size) ++ str " B"
  else if size < 1024 * 1024 then render1 size 1024 ++ str " KB"
  else if size < 1024 * 1024 * 1024 then render1 size (1024 * 1024) ++ str " MB"
  else render1 size (1024 * 1024 * 1024) ++ str " GB"

/-- `ObjectList._get_file_extension` (object_list.py): last `"."`-separated
chunk, lowercased; empty when the name is empty or has no dot. -/
def get_file_extension (filename : Str) : Str :=
  if filename = [] ∨ ¬ '.' ∈ filename then []
  else ((pySplit '.' filename).getLastD []).map Char.toLower

/-- `ObjectList._create_parent_dir_object`: the `".."` row. -/
def create_parent_dir_object : UIObject :=
  { key := str "..", is_folder := true, size := [], modified := [], ftype := str "dir" }

/-- `ObjectList._create_folder_object`: a folder row; the source sets empty
`size` and `modified` ("No size for folders since we don't fetch all files"). -/
def create_folder_object (folderName : Str) : UIObject :=
  { key := folderName, is_folder := true, size := [], modified := [], ftype := str "dir" }

/-- `ObjectList._create_file_object`: a file row with formatted size,
rendered modification time, and lowercased extension. -/
def create_file_object (filename : Str) (o : S3File) : UIObject :=
  { key := filename
    is_folder := false
    size := format_file_size o.size
    modified := o.lastModified.rendered
    ftype := get_file_extension filename }

/-- The parent-link segment of `ObjectList._build_ui_objects`: prepended
exactly when `current_prefix` is truthy (non-empty). -/
def parent_part (curPfx : Str) : List UIObject :=
  if curPfx = [] then [] else [create_parent_dir_object]

/-- The folder segment of `ObjectList._build_ui_objects`: for each response
folder, strip `current_prefix`, strip trailing slashes, keep non-empty names,
in response order. -/
def folder_rows (curPfx : Str) (resp : S3Response) : List UIObject :=
  resp.folders.filterMap (fun f =>
    let folderName := rstripSlash (f.pfx.drop curPfx.length)
    if folderName = [] then none else some (create_folder_object folderName))

/-- The file segment of `ObjectList._build_ui_objects`: for each response
file, strip `current_prefix`, keep non-empty names, in response order. -/
def file_rows (curPfx : Str) (resp : S3Response) : List UIObject :=
  resp.files.filterMap (fun o =>
    let filename := o.key.drop curPfx.length
    if filename = [] then none else some (create_file_object filename o))

/-- `ObjectList._build_ui_objects` (object_list.py): optional parent link,
then folder rows, then file rows, in the order of the store response; the
source performs no sorting. -/
def build_ui_objects (curPfx : Str) (resp : S3Response) : List UIObject :=
  parent_part curPfx ++ folder_rows curPfx resp ++ file_rows curPfx resp

example : build_ui_objects [] ⟨[⟨str "a/"⟩], []⟩
    = [⟨str "a", true, [], [], str "dir"⟩] := by decide

example : build_ui_objects (str "p/") ⟨[], [⟨str "p/x.txt", 3, ⟨str "t"⟩⟩]⟩
    = [create_parent_dir_object, ⟨str "x.txt", false, str "3 B", str "t", str "txt"⟩] := by
  decide

/-- The mutable state of `ObjectList` relevant to listing, navigation and
error handling (object_list.py): `current_bucket`, `current_prefix`,
`_all_objects` (the cached store response; `none` models the empty dict),
`objects` (the displayed rows), `is_loading`, plus the list of messages
emitted through `self.notify` (the Display Surface collaborator).  The
`_on_load_complete_callback` hook is omitted: it never touches any of these
fields. -/
structure WidgetState where
  curBucket : Str
  curPfx : Str
  allObjects : Option S3Response
  objects : List UIObject
  isLoading : Bool
  notifications : List Str
deriving DecidableEq

/-- `ObjectList._clear_objects`: resets the cache and displayed rows. -/
def clear_objects (st : WidgetState) : WidgetState :=
  { st with allObjects := none, objects := [], isLoading := false }

/-- `ObjectList._filter_objects_by_prefix`: recompute the displayed rows for
the current prefix from the cached response (empty rows when the cache is
the empty dict). -/
def filter_objects_by_pfx (st : WidgetState) : WidgetState :=
  match st.allObjects with
  | none => { st with objects := [] }
  | some resp => { st with objects := build_ui_objects st.curPfx resp }

/-- `ObjectList._on_objects_loaded`: unconditionally store the fetched
response, refilter for the current prefix, stop loading.  The source has no
generation/staleness check. -/
def on_objects_loaded (st : WidgetState) (objects : S3Response) : WidgetState :=
  let st1 := filter_objects_by_pfx { st with allObjects := some objects }
  { st1 with isLoading := false }

/-- The message `f"Error loading bucket objects: {error}"`. -/
def error_message (error : Str) : Str := str "Error loading bucket objects: " ++ error

/-- `ObjectList._on_objects_error`: clear all object data, stop loading, and
emit exactly one error notification. -/
def on_objects_error (st : WidgetState) (error : Str) : WidgetState :=
  let st1 := { clear_objects st with isLoading := false }
  { st1 with notifications := st1.notifications ++ [error_message error] }

/-- A background fetch hand-off delivered to the UI thread by
`ObjectList._load_objects_async` via `app.call_later`: either the loaded
response or the captured exception message. -/
inductive Completion where
  | loaded (resp : S3Response)
  | errored (msg : Str)
deriving DecidableEq

/-- Apply one delivered completion on the UI thread. -/
def apply_completion (st : WidgetState) : Completion → WidgetState
  | .loaded r => on_objects_loaded st r
  | .errored e => on_objects_error st e

/-- Process a sequence of completions in the order `app.call_later` delivers
them on the single UI thread. -/
def run_completions (st : WidgetState) (cs : List Completion) : WidgetState :=
  cs.foldl apply_completion st

/-- The prefix update of `ObjectList._navigate_up`: no-op on the empty
prefix; otherwise strip trailing slashes, split on `"/"`, and drop the last
segment (rejoining with a trailing slash, or the empty prefix when a single
segment remains). -/
def navigate_up_pfx (cur : Str) : Str :=
  if cur = [] then cur
  else
    let pathParts := pySplit '/' (rstripSlash cur)
    if pathParts.length > 1 then joinWith '/' pathParts.dropLast ++ ['/']
    else []

/-- The prefix update of `ObjectList._navigate_into_folder`:
`f"{self.current_prefix}{folder_name}/"`. -/
def navigate_into_folder_pfx (cur folderName : Str) : Str :=
  cur ++ folderName ++ ['/']

/-- The prefix corresponding to a navigation stack: each segment followed by
`"/"` (the shape produced by repeated `navigate_into_folder_pfx` from the
bucket root). -/
def pfxOfStack (segs : List Str) : Str :=
  (segs.map (fun s => s ++ ['/'])).flatten

/-- `ObjectList.get_focused_object`: `None` when nothing is focused, the row
list is empty, or the index is out of range; otherwise the row at the
focused index. -/
def get_focused_object (objects : List UIObject) (index : Option Nat) : Option UIObject :=
  match index with
  | none => none
  | some focusedIndex =>
    if objects = [] then none
    else if focusedIndex < objects.length then objects[focusedIndex]?
    else none

/-- `ObjectList.get_s3_uri_for_focused_object`: `None` without a focused row
or current bucket, `None` for the `".."` sentinel key, otherwise
`s3://bucket/` followed by `current_prefix + key` (with a trailing slash for
folder rows). -/
def get_s3_uri_for_focused_object (curBucket curPfx : Str) (objects : List UIObject)
    (index : Option Nat) : Option Str :=
  match get_focused_object objects index with
  | none => none
  | some focusedObj =>
    if curBucket = [] then none
    else if focusedObj.key = str ".." then none
    else if focusedObj.is_folder then
      some (str "s3://" ++ curBucket ++ '/' :: (curPfx ++ focusedObj.key ++ ['/']))
    else
      some (str "s3://" ++ curBucket ++ '/' :: (curPfx ++ focusedObj.key))

example : navigate_up_pfx (str "logs/") = [] := by decide
example : navigate_up_pfx (str "a/b/") = str "a/" := by decide
example : navigate_up_pfx [] = [] := by decide
example : get_s3_uri_for_focused_object (str "b") (str "p/")
    [⟨str "docs", true, [], [], str "dir"⟩] (some 0) = some (str "s3://b/p/docs/") := by decide

/-- Decidable equality for `Except` results, so concrete parse results can be
checked by `decide`. -/
instance {ε α : Type _} [DecidableEq ε] [DecidableEq α] : DecidableEq (Except ε α) := fun
  | .error e, .error f =>
    if h : e = f then .isTrue (h ▸ rfl) else .isFalse (fun hh => h (Except.error.inj hh))
  | .error _, .ok _ => .isFalse Except.noConfusion
  | .ok _, .error _ => .isFalse Except.noConfusion
  | .ok a, .ok b =>
    if h : a = b then .isTrue (h ▸ rfl) else .isFalse (fun hh => h (Except.ok.inj hh))

/-- `build_s3_uri` (src/src/s3tui/ui/utils.py): the URI builder. -/
def build_s3_uri (bucketName objectKey : Str) : Str :=
  if objectKey ≠ [] then str "s3://" ++ bucketName ++ '/' :: objectKey
  else str "s3://" ++ bucketName

/-- A CPython `scheme_chars` character: ASCII letters, digits, `+`, `-`, `.`. -/
def isSchemeChar (c : Char) : Bool :=
  c.isAlpha || c.isDigit || c = '+' || c = '-' || c = '.'

/-- The condition under which CPython `urlsplit` recognises a scheme: the
first `':'` is not at position 0, the first character is an ASCII letter,
and every character before the `':'` is a scheme character. -/
def schemeCond (url : Str) : Bool :=
  url.contains ':' &&
    (match url.takeWhile (fun c => c ≠ ':') with
     | [] => false
     | c :: cs => c.isAlpha && (c :: cs).all isSchemeChar)

/-- The result fields of CPython `urlsplit`. -/
structure PySplitResult where
  scheme : Str
  netloc : Str
  path : Str
  query : Str
  fragment : Str
deriving DecidableEq

/-- The fragment/query splitting tail of CPython `urlsplit`: the fragment is
everything after the first `'#'`, the query everything after the first `'?'`
of what precedes it.  Returns `(path, query, fragment)`. -/
def splitFragmentQuery (u : Str) : Str × Str × Str :=
  let u4 := if '#' ∈ u then u.takeWhile (fun c => c ≠ '#') else u
  let frag := if '#' ∈ u then (u.dropWhile (fun c => c ≠ '#')).drop 1 else []
  let path := if '?' ∈ u4 then u4.takeWhile (fun c => c ≠ '?') else u4
  let query := if '?' ∈ u4 then (u4.dropWhile (fun c => c ≠ '?')).drop 1 else []
  (path, query, frag)

/-- CPython `urllib.parse.urlsplit`: strip the unsafe bytes tab/CR/LF,
split off a scheme if present, then — when the remainder starts with `"//"`
— take the netloc up to the first of `/?#` (rejecting an unbalanced
square-bracket netloc with a `ValueError`), and finally split fragment and
query.  The NFKC `_checknetloc` validation, which can only reject certain
non-ASCII netlocs, is modelled as accepting; every theorem below that
quantifies over a netloc restricts it to ASCII. -/
def pyUrlsplit (url0 : Str) : Except Str PySplitResult :=
  let url1 := ((url0.filter (fun c => c ≠ '\t')).filter (fun c => c ≠ '\r')).filter
    (fun c => c ≠ '\n')
  let scheme :=
    if schemeCond url1 then (url1.takeWhile (fun c => c ≠ ':')).map Char.toLower else []
  let u2 := if schemeCond url1 then (url1.dropWhile (fun c => c ≠ ':')).drop 1 else url1
  match u2 with
  | '/' :: '/' :: body =>
    let netloc := body.takeWhile (fun c => c ≠ '/' && c ≠ '?' && c ≠ '#')
    let rest := body.dropWhile (fun c => c ≠ '/' && c ≠ '?' && c ≠ '#')
    if ('[' ∈ netloc ∧ ¬ ']' ∈ netloc) ∨ (']' ∈ netloc ∧ ¬ '[' ∈ netloc) then
      Except.error (str "Invalid IPv6 URL")
    else
      let (path, query, frag) := splitFragmentQuery rest
      Except.ok ⟨scheme, netloc, path, query, frag⟩
  | _ =>
    let (path, query, frag) := splitFragmentQuery u2
    Except.ok ⟨scheme, [], path, query, frag⟩

/-- The schemes for which CPython `urlparse` splits `;parameters` from the
path (`uses_params`, minus its empty-string entry which is listed
separately); note `"s3"` is not among them. -/
def usesParamsList : List Str :=
  [[], str "ftp", str "hdl", str "prospero", str "http", str "imap", str "https",
   str "shttp", str "rtsp", str "rtspu", str "sip", str "sips", str "mms",
   str "sftp", str "tel"]

/-- CPython `urllib.parse._splitparams`, as reachable from `urlparse` (which
only calls it when `';'` occurs in the path): split at the first `';'` of
the last `'/'`-separated segment. -/
def pySplitparams (p : Str) : Str × Str :=
  if '/' ∈ p then
    let lastSeg := (p.reverse.takeWhile (fun c => c ≠ '/')).reverse
    if ';' ∈ lastSeg then
      (p.take (p.length - lastSeg.length) ++ lastSeg.takeWhile (fun c => c ≠ ';'),
        (lastSeg.dropWhile (fun c => c ≠ ';')).drop 1)
    else (p, [])
  else if ';' ∈ p then
    (p.takeWhile (fun c => c ≠ ';'), (p.dropWhile (fun c => c ≠ ';')).drop 1)
  else (p, [])

/-- The result fields of CPython `urlparse`. -/
structure PyParseResult where
  scheme : Str
  netloc : Str
  path : Str
  params : Str
  query : Str
  fragment : Str
deriving DecidableEq

/-- CPython `urllib.parse.urlparse`: `urlsplit` plus params splitting for
the schemes of `uses_params`. -/
def pyUrlparse (url : Str) : Except Str PyParseResult := do
  let r ← pyUrlsplit url
  if r.scheme ∈ usesParamsList ∧ ';' ∈ r.path then
    let (p, params) := pySplitparams r.path
    return ⟨r.scheme, r.netloc, p, params, r.query, r.fragment⟩
  else
    return ⟨r.scheme, r.netloc, r.path, [], r.query, r.fragment⟩

/-- `parse_s3_uri` (src/src/s3tui/ui/utils.py): `urlparse` the URI and
return `(netloc, path[1:])` as the `(bucket, file_key)` named tuple. -/
def parse_s3_uri (s3_uri : Str) : Except Str (Str × Str) := do
  let r ← pyUrlparse s3_uri
  return (r.netloc, r.path.drop 1)

/-- `S3.resolve_s3_location` (src/src/s3tui/gateways/s3.py): a verbatim
duplicate of `parse_s3_uri`. -/
def resolve_s3_location : Str → Except Str (Str × Str) := parse_s3_uri

example : parse_s3_uri (str "s3://bucket/a/b.txt")
    = Except.ok (str "bucket", str "a/b.txt") := by decide
example : parse_s3_uri (str "s3://bucket") = Except.ok (str "bucket", []) := by decide
example : parse_s3_uri (str "s3://bucket/a?b") = Except.ok (str "bucket", str "a") := by decide
example : parse_s3_uri (str "s3:///mykey") = Except.ok ([], str "mykey") := by decide
example : parse_s3_uri (str "http://h/p;x") = Except.ok (str "h", str "p") := by decide
example : parse_s3_uri (str "s3://b/p;x") = Except.ok (str "b", str "p;x") := by decide

/-- Python `os.path.basename` for POSIX paths: everything after the last
`'/'`. -/
def basename (p : Str) : Str := (p.reverse.takeWhile (fun c => c ≠ '/')).reverse

/-- `S3.upload_file` (src/src/s3tui/gateways/s3.py).  After the
`resolve_s3_uri` decorator the destination pfx is a plain string (never
`None`).  The body assigns `key` only under
`if not prefix or prefix.endswith("/")`; on any other pfx the subsequent
use of `key` raises `UnboundLocalError` before `client.upload_file` is
called.  A successful call is modelled by the `(local_file_path,
bucket_name, key)` argument triple handed to the store client. -/
def upload_file (local_file_path bucketName pfx : Str) : Except Str (Str × Str × Str) :=
  if pfx = [] ∨ ['/'].isSuffixOf pfx then
    Except.ok (local_file_path, bucketName, pfx ++ basename local_file_path)
  else
    Except.error (str "UnboundLocalError")

example : upload_file (str "/tmp/a.txt") (str "b") (str "docs/")
    = Except.ok (str "/tmp/a.txt", str "b", str "docs/a.txt") := by decide
example : upload_file (str "/tmp/a.txt") (str "b") (str "docs")
    = Except.error (str "UnboundLocalError") := by decide

/-- Modelled from the spec: `S3.list_objects_for_prefix` is invoked by
`ObjectList._load_objects_async` but is absent from the source tree.  Per
the spec (§4.2 `deriveView` input and the glossary's "Delimiter grouping"),
the store listing for a bucket and a pfx groups keys by the `'/'`
delimiter: every record whose key extends the pfx and whose remainder
contains a `'/'` contributes a common-prefix folder entry (deduplicated,
first occurrence order), and every record whose remainder is non-empty and
`'/'`-free is a direct file entry. -/
def list_objects_for_pfx (records : List ObjectRecord) (pfx : Str) : S3Response :=
  let matching := records.filter (fun r => pfx.isPrefixOf r.key)
  { folders :=
      ((matching.filterMap (fun r =>
          let rem := r.key.drop pfx.length
          if '/' ∈ rem then some (pfx ++ rem.takeWhile (fun c => c ≠ '/') ++ ['/'])
          else none)).dedup).map (fun p => ⟨p⟩)
    files := matching.filterMap (fun r =>
      let rem := r.key.drop pfx.length
      if rem ≠ [] ∧ ¬ '/' ∈ rem then some ⟨r.key, r.size, r.lastModified⟩ else none) }

/-- The end-to-end view derivation (spec `deriveView`): fetch the
delimiter-grouped listing for the pfx and build the UI rows from it. -/
def deriveView (records : List ObjectRecord) (pfx : Str) : List UIObject :=
  build_ui_objects pfx (list_objects_for_pfx records pfx)

example : deriveView
    [⟨str "a/b.txt", 10, ⟨str "d1"⟩⟩, ⟨str "a/c.txt", 20, ⟨str "d2"⟩⟩] []
    = [⟨str "a", true, [], [], str "dir"⟩] := by decide

/-- `isSortedByKey rows` checks that consecutive row keys are in ascending
byte order. -/
def isSortedByKey : List UIObject → Bool
  | x :: y :: t => lexLe x.key y.key && isSortedByKey (y :: t)
  | _ => true

/-! ## Claim C1: concurrent fetch completion order -/

/-- The widget state while a fetch for `p1/` and a fetch for `p2/` are both
in flight, after the user has navigated to `p2/`. -/
def c1State : WidgetState :=
  { curBucket := str "data", curPfx := str "p2/", allObjects := none,
    objects := [], isLoading := true, notifications := [] }

/-- The response fetched for `p1/`. -/
def c1RespP1 : S3Response := ⟨[], [⟨str "p1/a.txt", 5, ⟨str "2024-01-01 00:00"⟩⟩]⟩

/-- The response fetched for `p2/`. -/
def c1RespP2 : S3Response := ⟨[], [⟨str "p2/b.txt", 7, ⟨str "2024-01-02 00:00"⟩⟩]⟩

/-- C1 fails on the code: with a fetch for `p1/` and a fetch for `p2/` in
flight and the `p1/` fetch completing after the `p2/` one, the cache ends
up holding the `p1/` fetch's data — `_on_objects_loaded` has no generation
check — whereas the claim requires it to hold the `p2/` data. -/
theorem c1_counterexample :
    (run_completions c1State
        [Completion.loaded c1RespP2, Completion.loaded c1RespP1]).allObjects
      = some c1RespP1 ∧ c1RespP1 ≠ c1RespP2 := by
  exact ⟨rfl, by decide⟩

/-- C1 amended: completions are applied unconditionally in the order they are
delivered to the UI thread, so after any two successful completions the cache
holds the later one's data and the rows are rebuilt from it at the current
prefix; a fetch for P1 completing after a fetch for P2 therefore overwrites
P2's data. -/
theorem c1_last_completion_wins (st : WidgetState) (rP2 rP1 : S3Response) :
    (run_completions st [Completion.loaded rP2, Completion.loaded rP1]).allObjects
        = some rP1 ∧
      (run_completions st [Completion.loaded rP2, Completion.loaded rP1]).objects
        = build_ui_objects st.curPfx rP1 := ⟨rfl, rfl⟩

/-! ## Claim C2: fetch-failure behaviour -/

/-- A widget state with a non-empty cached listing and displayed rows. -/
def c2State : WidgetState :=
  { curBucket := str "data", curPfx := [],
    allObjects := some ⟨[⟨str "logs/"⟩], []⟩,
    objects := [⟨str "logs", true, [], [], str "dir"⟩],
    isLoading := true, notifications := [] }

/-- C2 fails on the code: `_on_objects_error` calls `_clear_objects`, so a
fetch failure empties both the cached listing and the displayed rows instead
of leaving them unchanged. -/
theorem c2_counterexample :
    (on_objects_error c2State (str "boom")).allObjects = none ∧
      c2State.allObjects ≠ none ∧
      (on_objects_error c2State (str "boom")).objects = [] ∧
      c2State.objects ≠ [] := by
  exact ⟨rfl, by decide, rfl, by decide⟩

/-- C2 amended: on a fetch failure the widget clears the cached listing and
the displayed rows (rather than retaining them), stops loading, emits exactly
one error notification, and leaves the navigation state (bucket and prefix)
unchanged. -/
theorem c2_error_clears_and_notifies_once (st : WidgetState) (err : Str) :
    (on_objects_error st err).allObjects = none ∧
      (on_objects_error st err).objects = [] ∧
      (on_objects_error st err).isLoading = false ∧
      (on_objects_error st err).notifications
        = st.notifications ++ [error_message err] ∧
      (on_objects_error st err).curBucket = st.curBucket ∧
      (on_objects_error st err).curPfx = st.curPfx :=
  ⟨rfl, rfl, rfl, rfl, rfl, rfl⟩

/-! ## Claim C3: folder aggregation -/

/-- The two records of spec property P3. -/
def c3Records : List ObjectRecord :=
  [⟨str "a/b.txt", 10, ⟨str "2024-01-01 00:00"⟩⟩,
   ⟨str "a/c.txt", 20, ⟨str "2024-01-02 00:00"⟩⟩]

/-- C3 fails on the code: deriving the view at the bucket root over the two
records yields one FOLDER row named `a` and no FILE rows, but the folder
row's size is the empty string — `_create_folder_object` never aggregates
sizes — not the claimed sum 30 (which `format_file_size` would render as
`"30 B"`). -/
theorem c3_counterexample :
    deriveView c3Records [] = [⟨str "a", true, [], [], str "dir"⟩] ∧
      (deriveView c3Records []).map (fun r => r.size) = [[]] ∧
      ([] : Str) ≠ format_file_size 30 := by
  refine ⟨by decide, by decide, by decide⟩

/-- C3 amended: deriving the view for the empty prefix over the two records
yields exactly one FOLDER row named `a` and no FILE rows, and the folder
row's size and lastModified are empty — folder rows never carry aggregated
size or modification time. -/
theorem c3_one_folder_no_aggregation :
    deriveView c3Records [] = [⟨str "a", true, [], [], str "dir"⟩] := by decide

/-! ## Claim C10: upload precondition -/

/-- C10 holds: when the resolved destination prefix is non-empty and lacks a
trailing slash, `upload_file` hits an unbound `key` variable and raises
before the client upload is attempted; otherwise the upload proceeds with
key `prefix + basename(local path)`. -/
theorem c10_upload_precondition (localPath bucketName pfx : Str) :
    (pfx ≠ [] → ['/'].isSuffixOf pfx = false →
        upload_file localPath bucketName pfx = Except.error (str "UnboundLocalError")) ∧
      (pfx = [] ∨ ['/'].isSuffixOf pfx = true →
        upload_file localPath bucketName pfx
          = Except.ok (localPath, bucketName, pfx ++ basename localPath)) := by
  constructor
  · intro h1 h2
    simp [upload_file, h1, h2]
  · intro h
    rcases h with h | h <;> simp [upload_file, h]

/-- Witness for C10 at concrete inputs: prefix `"docs"` (no trailing slash)
raises, prefix `"docs/"` uploads `docs/a.txt`. -/
theorem c10_upload_precondition_witness :
    upload_file (str "/tmp/a.txt") (str "b") (str "docs")
        = Except.error (str "UnboundLocalError") ∧
      upload_file (str "/tmp/a.txt") (str "b") (str "docs/")
        = Except.ok (str "/tmp/a.txt", str "b", str "docs/" ++ basename (str "/tmp/a.txt")) :=
  ⟨(c10_upload_precondition (str "/tmp/a.txt") (str "b") (str "docs")).1
      (by decide) (by decide),
    (c10_upload_precondition (str "/tmp/a.txt") (str "b") (str "docs/")).2
      (Or.inr (by decide))⟩

/-! ## Claim C4: parent link -/

/-- Every folder row carries `is_folder = true`. -/
theorem mem_folder_rows_is_folder {p : Str} {resp : S3Response} {r : UIObject}
    (h : r ∈ folder_rows p resp) : r.is_folder = true := by
  simp only [folder_rows, List.mem_filterMap] at h
  obtain ⟨f, _, hf⟩ := h
  by_cases hc : rstripSlash (f.pfx.drop p.length) = [] <;> simp [hc] at hf
  rw [← hf]
  rfl

/-- Every file row carries `is_folder = false`. -/
theorem mem_file_rows_is_folder {p : Str} {resp : S3Response} {r : UIObject}
    (h : r ∈ file_rows p resp) : r.is_folder = false := by
  simp only [file_rows, List.mem_filterMap] at h
  obtain ⟨o, _, ho⟩ := h
  by_cases hc : o.key.drop p.length = [] <;> simp [hc] at ho
  rw [← ho]
  rfl

/-- C4 holds: a view for a non-empty prefix starts with the parent-link row,
and the view for the empty prefix is exactly the folder rows followed by the
file rows — no parent-link row is created at the bucket root. -/
theorem c4_parent_link (pfx : Str) (resp : S3Response) :
    (pfx ≠ [] → (build_ui_objects pfx resp).head? = some create_parent_dir_object) ∧
      build_ui_objects [] resp = folder_rows [] resp ++ file_rows [] resp := by
  constructor
  · intro h
    simp [build_ui_objects, parent_part, h]
  · simp [build_ui_objects, parent_part]

/-- Witness for C4 at the concrete prefix `"logs/"`. -/
theorem c4_parent_link_witness :
    (build_ui_objects (str "logs/") ⟨[], []⟩).head? = some create_parent_dir_object :=
  (c4_parent_link (str "logs/") ⟨[], []⟩).1 (by decide)

/-! ## Claim C8: selection-to-location mapping -/

/-- C8 fails on the code: a FILE row whose name is `".."` (such a row is
reachable — a store object whose key's final segment is `".."` produces it,
as the first conjunct shows) is mapped to `none`, because
`get_s3_uri_for_focused_object` tests the key against the `".."` sentinel
before looking at `is_folder`; the claim requires a FILE row to map to a
location. -/
theorem c8_counterexample :
    build_ui_objects [] ⟨[], [⟨str "..", 1, ⟨str "2024-01-01 00:00"⟩⟩]⟩
        = [⟨str "..", false, str "1 B", str "2024-01-01 00:00", []⟩] ∧
      get_s3_uri_for_focused_object (str "b") []
        [⟨str "..", false, str "1 B", str "2024-01-01 00:00", []⟩] (some 0) = none := by
  exact ⟨by decide, by decide⟩

/-- C8 amended: with a non-empty current bucket, the mapping returns `none`
when nothing is focused, when the index is out of range, and for any row
whose name is the `".."` sentinel (in particular the PARENT_LINK row);
for any other FOLDER row it returns the URI for key
`currentPrefix + name + "/"`, and for any other FILE row the URI for key
`currentPrefix + name`. -/
theorem c8_location_mapping (bucket pfx : Str) (objects : List UIObject)
    (i : Nat) (obj : UIObject) (hb : bucket ≠ []) (hobj : objects[i]? = some obj) :
    get_s3_uri_for_focused_object bucket pfx objects none = none ∧
      (∀ j, objects.length ≤ j →
        get_s3_uri_for_focused_object bucket pfx objects (some j) = none) ∧
      (obj.key = str ".." →
        get_s3_uri_for_focused_object bucket pfx objects (some i) = none) ∧
      (obj.key ≠ str ".." → obj.is_folder = true →
        get_s3_uri_for_focused_object bucket pfx objects (some i)
          = some (str "s3://" ++ bucket ++ '/' :: (pfx ++ obj.key ++ ['/']))) ∧
      (obj.key ≠ str ".." → obj.is_folder = false →
        get_s3_uri_for_focused_object bucket pfx objects (some i)
          = some (str "s3://" ++ bucket ++ '/' :: (pfx ++ obj.key))) := by
  have hlt : i < objects.length := by
    by_contra h
    rw [List.getElem?_eq_none (Nat.le_of_not_lt h)] at hobj
    exact Option.noConfusion hobj
  have hne : objects ≠ [] := by
    intro h
    subst h
    simp at hlt
  have hfoc : get_focused_object objects (some i) = some obj := by
    simp [get_focused_object, hne, hlt, hobj]
  refine ⟨rfl, ?_, ?_, ?_, ?_⟩
  · intro j hj
    have hnone : get_focused_object objects (some j) = none := by
      simp [get_focused_object, show ¬ j < objects.length from Nat.not_lt.mpr hj]
    simp [get_s3_uri_for_focused_object, hnone]
  · intro hkey
    simp [get_s3_uri_for_focused_object, hfoc, hb, hkey]
  · intro hkey hfold
    simp [get_s3_uri_for_focused_object, hfoc, hb, hkey, hfold]
  · intro hkey hfold
    simp [get_s3_uri_for_focused_object, hfoc, hb, hkey, hfold]

/-- Witness for C8 at a concrete folder row `"docs"` under prefix `"p/"`. -/
theorem c8_location_mapping_witness :
    get_s3_uri_for_focused_object (str "b") (str "p/")
        [⟨str "docs", true, [], [], str "dir"⟩] (some 0)
      = some (str "s3://" ++ str "b" ++ '/' :: (str "p/" ++ str "docs" ++ ['/'])) :=
  (c8_location_mapping (str "b") (str "p/") [⟨str "docs", true, [], [], str "dir"⟩] 0
      ⟨str "docs", true, [], [], str "dir"⟩ (by decide) (by decide)).2.2.2.1
    (by decide) rfl

/-! ## Claim C9: view ordering -/

/-- A store response whose folder entries are in ascending byte order. -/
def c9Resp : S3Response := ⟨[⟨str "a!/"⟩, ⟨str "a/"⟩], []⟩

/-- C9 fails on the code: `_build_ui_objects` never sorts, and even for a
response in ascending byte order (as S3 returns it) the derived folder
names are not sorted — stripping the trailing slash reorders `"a!/" < "a/"`
into names `"a!" > "a"`. -/
theorem c9_counterexample :
    lexLe (str "a!/") (str "a/") = true ∧
      build_ui_objects [] c9Resp
        = [⟨str "a!", true, [], [], str "dir"⟩, ⟨str "a", true, [], [], str "dir"⟩] ∧
      isSortedByKey (build_ui_objects [] c9Resp) = false := by
  refine ⟨by decide, by decide, by decide⟩

/-- C9 amended: the view is the parent link (when present), then all FOLDER
rows, then all FILE rows — every `is_folder` row precedes every file row —
and each group appears in the order of the store response (shown here for
the file group: its keys are exactly the prefix-stripped non-empty file keys
of the response, in response order); the code performs no sorting of its
own. -/
theorem c9_group_order (pfx : Str) (resp : S3Response) :
    build_ui_objects pfx resp
        = (build_ui_objects pfx resp).filter (fun r => r.is_folder)
          ++ (build_ui_objects pfx resp).filter (fun r => !r.is_folder) ∧
      ((build_ui_objects pfx resp).filter (fun r => !r.is_folder)).map (fun r => r.key)
        = resp.files.filterMap (fun o =>
            if o.key.drop pfx.length = [] then none else some (o.key.drop pfx.length)) := by
  have hparent : ∀ r ∈ parent_part pfx, r.is_folder = true := by
    intro r hr
    unfold parent_part at hr
    by_cases h : pfx = [] <;> simp [h] at hr
    rw [hr]
    rfl
  have hfoldf : (folder_rows pfx resp).filter (fun r => r.is_folder) = folder_rows pfx resp :=
    List.filter_eq_self.mpr (fun r hr => by simp [mem_folder_rows_is_folder hr])
  have hfilef : (file_rows pfx resp).filter (fun r => r.is_folder) = [] := by
    rw [List.filter_eq_nil_iff]
    intro r hr
    simp [mem_file_rows_is_folder hr]
  have hparf : (parent_part pfx).filter (fun r => r.is_folder) = parent_part pfx :=
    List.filter_eq_self.mpr (fun r hr => by simp [hparent r hr])
  have hfoldn : (folder_rows pfx resp).filter (fun r => !r.is_folder) = [] := by
    rw [List.filter_eq_nil_iff]
    intro r hr
    simp [mem_folder_rows_is_folder hr]
  have hfilen : (file_rows pfx resp).filter (fun r => !r.is_folder) = file_rows pfx resp :=
    List.filter_eq_self.mpr (fun r hr => by simp [mem_file_rows_is_folder hr])
  have hparn : (parent_part pfx).filter (fun r => !r.is_folder) = [] := by
    rw [List.filter_eq_nil_iff]
    intro r hr
    simp [hparent r hr]
  constructor
  · simp [build_ui_objects, List.filter_append, hfoldf, hfilef, hparf, hfoldn, hfilen, hparn]
  · have hfile : (build_ui_objects pfx resp).filter (fun r => !r.is_folder)
        = file_rows pfx resp := by
      simp [build_ui_objects, List.filter_append, hfoldn, hfilen, hparn]
    rw [hfile]
    simp only [file_rows, List.map_filterMap]
    congr 1
    funext o
    by_cases h : o.key.drop pfx.length = [] <;> simp [h, create_file_object]

/-! ## Claim C7: go-up navigation -/

/-- `pySplit` never returns the empty list of chunks. -/
theorem pySplit_ne_nil (sep : Char) (l : Str) : pySplit sep l ≠ [] := by
  cases l with
  | nil => simp [pySplit]
  | cons c cs =>
    unfold pySplit
    split
    · simp
    · split <;> simp

/-- Splitting a separator-free string yields the single chunk itself. -/
theorem pySplit_no_sep {sep : Char} : ∀ {x : Str}, ¬ sep ∈ x → pySplit sep x = [x] := by
  intro x
  induction x with
  | nil => intro _; rfl
  | cons c cs ih =>
    intro h
    have hc : ¬ c = sep := fun e => h (e ▸ List.mem_cons_self c cs)
    have hcs : ¬ sep ∈ cs := fun e => h (List.mem_cons_of_mem c e)
    unfold pySplit
    rw [ih hcs]
    simp [hc]

/-- Splitting peels off a separator-free chunk before a separator. -/
theorem pySplit_append_sep {sep : Char} {t : Str} :
    ∀ {x : Str}, ¬ sep ∈ x → pySplit sep (x ++ sep :: t) = x :: pySplit sep t := by
  intro x
  induction x with
  | nil =>
    intro _
    show pySplit sep (sep :: t) = [] :: pySplit sep t
    cases h : pySplit sep t with
    | nil => exact absurd h (pySplit_ne_nil sep t)
    | cons a b =>
      rw [pySplit, h]
      simp
  | cons c cs ih =>
    intro h
    have hc : ¬ c = sep := fun e => h (e ▸ List.mem_cons_self c cs)
    have hcs : ¬ sep ∈ cs := fun e => h (List.mem_cons_of_mem c e)
    show pySplit sep (c :: (cs ++ sep :: t)) = (c :: cs) :: pySplit sep t
    rw [pySplit, ih hcs]
    simp [hc]

/-- `dropWhile` is the identity on a list no element of which satisfies the
predicate. -/
theorem dropWhile_eq_self_of_forall {p : Char → Bool} {l : Str}
    (h : ∀ c ∈ l, p c = false) : l.dropWhile p = l := by
  cases l with
  | nil => rfl
  | cons c t => simp [List.dropWhile_cons, h c (List.mem_cons_self c t)]

/-- `rstrip("/")` is the identity on a slash-free string. -/
theorem rstripSlash_no_slash {s : Str} (h : ¬ '/' ∈ s) : rstripSlash s = s := by
  unfold rstripSlash
  rw [dropWhile_eq_self_of_forall, List.reverse_reverse]
  intro c hc
  simp only [decide_eq_false_iff_not]
  exact fun e => h (e ▸ (List.mem_reverse.mp hc))

/-- `rstrip("/")` over an appended suffix with non-empty stripped form. -/
theorem rstripSlash_append {a b : Str} (h : rstripSlash b ≠ []) :
    rstripSlash (a ++ b) = a ++ rstripSlash b := by
  unfold rstripSlash at *
  rw [List.reverse_append, List.dropWhile_append]
  have hb : ¬ (b.reverse.dropWhile (fun c => c = '/')).isEmpty = true := by
    intro he
    exact h (by rw [List.isEmpty_iff.mp he]; rfl)
  rw [if_neg hb]
  simp [List.reverse_append]

/-- The navigation-stack prefix unfolds one segment at a time. -/
theorem pfxOfStack_cons (x : Str) (rest : List Str) :
    pfxOfStack (x :: rest) = (x ++ ['/']) ++ pfxOfStack rest := by
  simp [pfxOfStack]

/-- `joinWith` of a stack headed by a non-empty segment is non-empty. -/
theorem joinWith_ne_nil {x : Str} (rest : List Str) (hx : x ≠ []) :
    joinWith '/' (x :: rest) ≠ [] := by
  cases rest with
  | nil => exact hx
  | cons y r => simp [joinWith]

/-- Stripping the trailing slash of a well-formed stack prefix yields the
slash-joined stack. -/
theorem rstripSlash_pfxOfStack :
    ∀ segs : List Str, (∀ s ∈ segs, s ≠ [] ∧ ¬ '/' ∈ s) → segs ≠ [] →
      rstripSlash (pfxOfStack segs) = joinWith '/' segs := by
  intro segs
  induction segs with
  | nil => intro _ h; exact absurd rfl h
  | cons x rest ih =>
    intro h _
    cases rest with
    | nil =>
      have hx := h x (List.mem_cons_self x [])
      rw [pfxOfStack_cons]
      show rstripSlash ((x ++ ['/']) ++ []) = joinWith '/' [x]
      rw [List.append_nil]
      have : rstripSlash (x ++ ['/']) = rstripSlash x := by
        unfold rstripSlash
        rw [List.reverse_append]
        simp [List.dropWhile_cons]
      rw [this, rstripSlash_no_slash hx.2]
      rfl
    | cons y rest2 =>
      have hy := h y (List.mem_cons_of_mem x (List.mem_cons_self y rest2))
      have hsub : ∀ s ∈ y :: rest2, s ≠ [] ∧ ¬ '/' ∈ s :=
        fun s hs => h s (List.mem_cons_of_mem x hs)
      have hne : rstripSlash (pfxOfStack (y :: rest2)) ≠ [] := by
        rw [ih hsub (by simp)]
        exact joinWith_ne_nil rest2 hy.1
      rw [pfxOfStack_cons, rstripSlash_append hne, ih hsub (by simp)]
      show (x ++ ['/']) ++ joinWith '/' (y :: rest2) = joinWith '/' (x :: y :: rest2)
      simp [joinWith]

/-- Re-appending the trailing slash to a slash-joined non-empty stack gives
back the stack prefix. -/
theorem joinWith_append_slash :
    ∀ segs : List Str, segs ≠ [] → joinWith '/' segs ++ ['/'] = pfxOfStack segs := by
  intro segs
  induction segs with
  | nil => intro h; exact absurd rfl h
  | cons x rest ih =>
    intro _
    cases rest with
    | nil => simp [joinWith, pfxOfStack]
    | cons y rest2 =>
      rw [pfxOfStack_cons, ← ih (by simp)]
      show (x ++ '/' :: joinWith '/' (y :: rest2)) ++ ['/']
        = (x ++ ['/']) ++ (joinWith '/' (y :: rest2) ++ ['/'])
      simp

/-- Splitting the slash-join of slash-free segments recovers the segments. -/
theorem pySplit_joinWith :
    ∀ segs : List Str, (∀ s ∈ segs, ¬ '/' ∈ s) → segs ≠ [] →
      pySplit '/' (joinWith '/' segs) = segs := by
  intro segs
  induction segs with
  | nil => intro _ h; exact absurd rfl h
  | cons x rest ih =>
    intro h _
    cases rest with
    | nil => exact pySplit_no_sep (h x (List.mem_cons_self x []))
    | cons y rest2 =>
      show pySplit '/' (x ++ '/' :: joinWith '/' (y :: rest2)) = x :: y :: rest2
      rw [pySplit_append_sep (h x (List.mem_cons_self x (y :: rest2)))]
      rw [ih (fun s hs => h s (List.mem_cons_of_mem x hs)) (by simp)]

/-- C7 holds: on a well-formed navigation stack (non-empty, slash-free
segments), `_navigate_up` maps the stack's prefix to the prefix of the stack
with its last segment removed — a no-op exactly on the empty stack, whose
prefix is `""`. -/
theorem c7_navigate_up (segs : List Str) (h : ∀ s ∈ segs, s ≠ [] ∧ ¬ '/' ∈ s) :
    navigate_up_pfx (pfxOfStack segs) = pfxOfStack segs.dropLast := by
  cases segs with
  | nil => rfl
  | cons x rest =>
    have hpf : pfxOfStack (x :: rest) ≠ [] := by
      rw [pfxOfStack_cons]
      simp
    have hsplit : pySplit '/' (rstripSlash (pfxOfStack (x :: rest))) = x :: rest := by
      rw [rstripSlash_pfxOfStack (x :: rest) h (by simp)]
      exact pySplit_joinWith (x :: rest) (fun s hs => (h s hs).2) (by simp)
    simp only [navigate_up_pfx, if_neg hpf, hsplit]
    cases rest with
    | nil => simp [pfxOfStack]
    | cons y rest2 =>
      rw [if_pos (by simp)]
      show joinWith '/' ((x :: y :: rest2).dropLast) ++ ['/']
        = pfxOfStack ((x :: y :: rest2).dropLast)
      apply joinWith_append_slash
      simp

/-- Witness for C7: going up from prefix `"logs/"` (stack `["logs"]`) yields
the empty prefix, the spec's scenario. -/
theorem c7_navigate_up_witness : navigate_up_pfx (str "logs/") = str "" :=
  c7_navigate_up [str "logs"] (by decide)

/-! ## Claims C5 and C6: URI building and parsing -/

/-- `takeWhile` keeps an all-satisfying block up to the first failing
element. -/
theorem takeWhile_append_cons_eq (p : Char → Bool) (y : Char) (ys : Str)
    (hy : p y = false) :
    ∀ xs : Str, (∀ a ∈ xs, p a = true) → (xs ++ y :: ys).takeWhile p = xs := by
  intro xs
  induction xs with
  | nil => intro _; simp [List.takeWhile_cons, hy]
  | cons c cs ih =>
    intro hall
    rw [List.cons_append, List.takeWhile_cons_of_pos (hall c (List.mem_cons_self c cs)),
      ih (fun a ha => hall a (List.mem_cons_of_mem c ha))]

/-- `dropWhile` drops an all-satisfying block up to the first failing
element. -/
theorem dropWhile_append_cons_eq (p : Char → Bool) (y : Char) (ys : Str)
    (hy : p y = false) :
    ∀ xs : Str, (∀ a ∈ xs, p a = true) → (xs ++ y :: ys).dropWhile p = y :: ys := by
  intro xs
  induction xs with
  | nil => intro _; simp [List.dropWhile_cons, hy]
  | cons c cs ih =>
    intro hall
    rw [List.cons_append, List.dropWhile_cons_of_pos (hall c (List.mem_cons_self c cs)),
      ih (fun a ha => hall a (List.mem_cons_of_mem c ha))]

/-- `takeWhile` is the identity on an all-satisfying list. -/
theorem takeWhile_eq_self_of_forall (p : Char → Bool) :
    ∀ xs : Str, (∀ a ∈ xs, p a = true) → xs.takeWhile p = xs := by
  intro xs
  induction xs with
  | nil => intro _; rfl
  | cons c cs ih =>
    intro hall
    rw [List.takeWhile_cons_of_pos (hall c (List.mem_cons_self c cs)),
      ih (fun a ha => hall a (List.mem_cons_of_mem c ha))]

/-- `dropWhile` empties an all-satisfying list. -/
theorem dropWhile_eq_nil_of_forall (p : Char → Bool) :
    ∀ xs : Str, (∀ a ∈ xs, p a = true) → xs.dropWhile p = [] := by
  intro xs
  induction xs with
  | nil => intro _; rfl
  | cons c cs ih =>
    intro hall
    rw [List.dropWhile_cons_of_pos (hall c (List.mem_cons_self c cs)),
      ih (fun a ha => hall a (List.mem_cons_of_mem c ha))]

/-- The unsafe-byte filters are the identity on a tab/CR/LF-free string. -/
theorem filters_eq_self {u : Str} (h : ∀ c ∈ u, ¬ c = '\t' ∧ ¬ c = '\r' ∧ ¬ c = '\n') :
    ((u.filter (fun c => c ≠ '\t')).filter (fun c => c ≠ '\r')).filter
      (fun c => c ≠ '\n') = u := by
  have h1 : u.filter (fun c => c ≠ '\t') = u :=
    List.filter_eq_self.mpr (fun a ha => by simp [(h a ha).1])
  have h2 : u.filter (fun c => c ≠ '\r') = u :=
    List.filter_eq_self.mpr (fun a ha => by simp [(h a ha).2.1])
  have h3 : u.filter (fun c => c ≠ '\n') = u :=
    List.filter_eq_self.mpr (fun a ha => by simp [(h a ha).2.2])
  rw [h1, h2, h3]

/-- CPython scheme recognition succeeds on any URL of the form `s3:...`. -/
theorem schemeCond_s3 (rest : Str) : schemeCond ('s' :: '3' :: ':' :: rest) = true := by
  unfold schemeCond
  rw [List.takeWhile_cons_of_pos (by decide), List.takeWhile_cons_of_pos (by decide),
    List.takeWhile_cons_of_neg (by decide)]
  simp [List.contains_cons]
  exact ⟨by decide, by decide⟩

/-- `pyUrlsplit` on a tab/CR/LF-free URL of the form `s3://body`: the scheme
is recognised and `body` is split into netloc and remainder. -/
theorem pyUrlsplit_s3 (body : Str)
    (h : ∀ c ∈ body, ¬ c = '\t' ∧ ¬ c = '\r' ∧ ¬ c = '\n') :
    pyUrlsplit ('s' :: '3' :: ':' :: '/' :: '/' :: body)
      = (if ('[' ∈ body.takeWhile (fun c => c ≠ '/' && c ≠ '?' && c ≠ '#')
              ∧ ¬ ']' ∈ body.takeWhile (fun c => c ≠ '/' && c ≠ '?' && c ≠ '#'))
            ∨ (']' ∈ body.takeWhile (fun c => c ≠ '/' && c ≠ '?' && c ≠ '#')
              ∧ ¬ '[' ∈ body.takeWhile (fun c => c ≠ '/' && c ≠ '?' && c ≠ '#')) then
          Except.error (str "Invalid IPv6 URL")
        else
          Except.ok ⟨str "s3",
            body.takeWhile (fun c => c ≠ '/' && c ≠ '?' && c ≠ '#'),
            (splitFragmentQuery
              (body.dropWhile (fun c => c ≠ '/' && c ≠ '?' && c ≠ '#'))).1,
            (splitFragmentQuery
              (body.dropWhile (fun c => c ≠ '/' && c ≠ '?' && c ≠ '#'))).2.1,
            (splitFragmentQuery
              (body.dropWhile (fun c => c ≠ '/' && c ≠ '?' && c ≠ '#'))).2.2⟩) := by
  have hurl : ∀ c ∈ ('s' :: '3' :: ':' :: '/' :: '/' :: body),
      ¬ c = '\t' ∧ ¬ c = '\r' ∧ ¬ c = '\n' := by
    simp only [List.forall_mem_cons]
    exact ⟨by decide, by decide, by decide, by decide, by decide, h⟩
  simp only [pyUrlsplit]
  rw [filters_eq_self hurl, schemeCond_s3 ('/' :: '/' :: body)]
  simp only [if_pos rfl]
  rw [List.takeWhile_cons_of_pos (by decide), List.takeWhile_cons_of_pos (by decide),
    List.takeWhile_cons_of_neg (by decide)]
  rw [List.dropWhile_cons_of_pos (by decide), List.dropWhile_cons_of_pos (by decide),
    List.dropWhile_cons_of_neg (by decide)]
  have hmap : (['s', '3'].map Char.toLower) = str "s3" := by decide
  simp [hmap]

/-- Reduce `parse_s3_uri` through a computed `urlsplit` result whose scheme
is `"s3"` (not in `uses_params`, so no params are split). -/
theorem parse_s3_uri_of_split {u : Str} {r : PySplitResult}
    (h : pyUrlsplit u = Except.ok r) (hs : r.scheme = str "s3") :
    parse_s3_uri u = Except.ok (r.netloc, r.path.drop 1) := by
  have hcond : ¬ (r.scheme ∈ usesParamsList ∧ ';' ∈ r.path) := by
    rintro ⟨hmem, -⟩
    rw [hs] at hmem
    revert hmem
    decide
  unfold parse_s3_uri pyUrlparse
  rw [h]
  simp [hcond, Bind.bind, Except.bind, Pure.pure, Except.pure]

/-- C5 fails on the code: `urlparse` splits a query at the first `'?'`, so
the key `"a?b"` does not survive the round trip — the parsed key is `"a"`. -/
theorem c5_counterexample :
    parse_s3_uri (build_s3_uri (str "bucket") (str "a?b"))
        = Except.ok (str "bucket", str "a") ∧
      (str "a", str "a?b").1 ≠ (str "a", str "a?b").2 := by
  exact ⟨by decide, by decide⟩

/-- C5 amended: the round trip `parse(build(b, k)) = (b, k)` holds for every
non-empty ASCII bucket `b` containing none of `/ ? # [ ]` tab CR LF and
every key `k` containing none of `? #` tab CR LF (keys may contain `/` and,
since `"s3"` is not a params scheme, `;`); outside these classes `urlparse`
truncates or rejects the URI, as the counterexample shows. -/
theorem c5_round_trip (b k : Str) (hbne : b ≠ [])
    (hbascii : ∀ c ∈ b, c.toNat < 128)
    (hbchars : ∀ c ∈ b, ¬ c = '/' ∧ ¬ c = '?' ∧ ¬ c = '#' ∧ ¬ c = '[' ∧ ¬ c = ']')
    (hbctl : ∀ c ∈ b, ¬ c = '\t' ∧ ¬ c = '\r' ∧ ¬ c = '\n')
    (hkchars : ∀ c ∈ k, ¬ c = '?' ∧ ¬ c = '#')
    (hkctl : ∀ c ∈ k, ¬ c = '\t' ∧ ¬ c = '\r' ∧ ¬ c = '\n') :
    parse_s3_uri (build_s3_uri b k) = Except.ok (b, k) := by
  have hball : ∀ a ∈ b, ((fun c => c ≠ '/' && c ≠ '?' && c ≠ '#') a) = true := by
    intro a ha
    have h := hbchars a ha
    simp [h.1, h.2.1, h.2.2.1]
  have hnb : ¬ (('[' ∈ b ∧ ¬ ']' ∈ b) ∨ (']' ∈ b ∧ ¬ '[' ∈ b)) := by
    rintro (⟨hm, -⟩ | ⟨hm, -⟩)
    · exact (hbchars '[' hm).2.2.2.1 rfl
    · exact (hbchars ']' hm).2.2.2.2 rfl
  by_cases hk : k = []
  · subst hk
    have hb1 : build_s3_uri b [] = 's' :: '3' :: ':' :: '/' :: '/' :: b := rfl
    rw [hb1]
    have hsplit := pyUrlsplit_s3 b hbctl
    rw [takeWhile_eq_self_of_forall _ b hball,
      dropWhile_eq_nil_of_forall _ b hball, if_neg hnb] at hsplit
    have hres := parse_s3_uri_of_split hsplit rfl
    simpa [splitFragmentQuery] using hres
  · have hb1 : build_s3_uri b k = 's' :: '3' :: ':' :: '/' :: '/' :: (b ++ '/' :: k) := by
      simp [build_s3_uri, hk, str]
    rw [hb1]
    have hbodyctl : ∀ c ∈ (b ++ '/' :: k), ¬ c = '\t' ∧ ¬ c = '\r' ∧ ¬ c = '\n' := by
      simp only [List.forall_mem_append, List.forall_mem_cons]
      exact ⟨hbctl, by decide, hkctl⟩
    have hsplit := pyUrlsplit_s3 (b ++ '/' :: k) hbodyctl
    rw [takeWhile_append_cons_eq _ '/' k (by decide) b hball,
      dropWhile_append_cons_eq _ '/' k (by decide) b hball, if_neg hnb] at hsplit
    have hnohash : ¬ '#' ∈ ('/' :: k) := by
      intro hm
      rcases List.mem_cons.mp hm with h | h
      · exact absurd h (by decide)
      · exact (hkchars '#' h).2 rfl
    have hnoq : ¬ '?' ∈ ('/' :: k) := by
      intro hm
      rcases List.mem_cons.mp hm with h | h
      · exact absurd h (by decide)
      · exact (hkchars '?' h).1 rfl
    have hsfq : splitFragmentQuery ('/' :: k) = ('/' :: k, [], []) := by
      simp [splitFragmentQuery, hnohash, hnoq]
    rw [hsfq] at hsplit
    have hres := parse_s3_uri_of_split hsplit rfl
    simpa using hres

/-- Witness for C5 (amended) at bucket `"bucket"` and key `"data/x.txt"`. -/
theorem c5_round_trip_witness :
    parse_s3_uri (build_s3_uri (str "bucket") (str "data/x.txt"))
      = Except.ok (str "bucket", str "data/x.txt") :=
  c5_round_trip (str "bucket") (str "data/x.txt") (by decide) (by decide) (by decide)
    (by decide) (by decide) (by decide)

/-- C6 fails on the code: parsing `"s3:///mykey"` — bucket segment absent,
key present — does not raise; it returns the location with an empty bucket
and key `"mykey"`.  No `MalformedUriError` exists anywhere in the code. -/
theorem c6_counterexample :
    parse_s3_uri (str "s3:///mykey") = Except.ok ([], str "mykey") ∧
      resolve_s3_location (str "s3:///mykey") = Except.ok ([], str "mykey") := by
  exact ⟨by decide, by decide⟩

/-- C6 amended: parsing a store-location string whose bucket segment is
absent while a key is present does not fail — for any key free of `? #` tab
CR LF, `parse("s3:///" + k)` returns `{bucket: "", key: k}`, the operation
proceeds normally, and no error of any kind is raised (the code defines no
`MalformedUriError`). -/
theorem c6_missing_bucket_no_error (k : Str)
    (hkchars : ∀ c ∈ k, ¬ c = '?' ∧ ¬ c = '#')
    (hkctl : ∀ c ∈ k, ¬ c = '\t' ∧ ¬ c = '\r' ∧ ¬ c = '\n') :
    parse_s3_uri (str "s3:///" ++ k) = Except.ok ([], k) := by
  have hb1 : str "s3:///" ++ k = 's' :: '3' :: ':' :: '/' :: '/' :: ('/' :: k) := rfl
  rw [hb1]
  have hbodyctl : ∀ c ∈ ('/' :: k), ¬ c = '\t' ∧ ¬ c = '\r' ∧ ¬ c = '\n' := by
    simp only [List.forall_mem_cons]
    exact ⟨by decide, hkctl⟩
  have hsplit := pyUrlsplit_s3 ('/' :: k) hbodyctl
  rw [List.takeWhile_cons_of_neg (by decide), List.dropWhile_cons_of_neg (by decide)]
    at hsplit
  rw [if_neg (by simp)] at hsplit
  have hnohash : ¬ '#' ∈ ('/' :: k) := by
    intro hm
    rcases List.mem_cons.mp hm with h | h
    · exact absurd h (by decide)
    · exact (hkchars '#' h).2 rfl
  have hnoq : ¬ '?' ∈ ('/' :: k) := by
    intro hm
    rcases List.mem_cons.mp hm with h | h
    · exact absurd h (by decide)
    · exact (hkchars '?' h).1 rfl
  have hsfq : splitFragmentQuery ('/' :: k) = ('/' :: k, [], []) := by
    simp [splitFragmentQuery, hnohash, hnoq]
  rw [hsfq] at hsplit
  have hres := parse_s3_uri_of_split hsplit rfl
  simpa using hres

/-- Witness for C6 (amended) at the key `"mykey"`. -/
theorem c6_missing_bucket_no_error_witness :
    parse_s3_uri (str "s3:///" ++ str "mykey") = Except.ok ([], str "mykey") :=
  c6_missing_bucket_no_error (str "mykey") (by decide) (by decide)
